import Mathlib

set_option synthInstance.maxSize 1024

set_option maxRecDepth 8192

/-!
Verification development for the aether module-composition engine
(src/src/lib/aether.ts).  The runtime is shallowly embedded:

* JavaScript values are `JsVal` (primitives, functions and plain objects
  used only as opaque references; function bodies are interpreted through
  an explicit environment `Env`).
* JavaScript objects used as string-keyed records (`Record<string, unknown>`)
  are association lists `JsObj` with JS property semantics: an existing key
  is updated in place, a new key is appended.
* Module definitions live in a heap `Nat → ModuleDefinition`; a `defId` models
  a JS object reference, so the `WeakMap` cache keyed by definition reference
  becomes a list keyed by `(defId, scopeId)` pairs (the two-level
  `WeakMap`/`Map` of the source is flattened, preserving lookup/insert
  semantics).  A heap, unlike an inductive tree, can also represent the
  cyclic definition graphs the tree builder must be examined on.
* Recursion over the (possibly cyclic) definition graph is modelled with
  explicit fuel; `none` means the recursion did not come back within the
  given fuel (in JavaScript: non-termination / stack exhaustion).
* Thrown JS `Error`s are `Except AetherError`; the message strings are
  abstracted into constructors.
* `async`/`await` sequences are modelled as ordinary sequential execution:
  each callback is fully awaited before the next starts, so the semantics
  is the deterministic sequential one.
-/

/-- Provider kind, source `ProviderKind = "decorator" | "store"`. -/
inductive Kind where
  | decorator
  | store

deriving DecidableEq, Repr

/-- Source `RESERVED_KEYS: Record<ProviderKind, string>`. -/
def reservedKey : Kind → String
  | .decorator => "decorator"
  | .store => "store"

/-- Source `PROVIDER_KINDS` array, in its declared order. -/
def PROVIDER_KINDS : List Kind := [.decorator, .store]

/-- JavaScript values as far as the runtime inspects them: strings, numbers,
functions (identified by an opaque tag, interpreted via `Env`), other object
references (opaque tags), and `undefined`. -/
inductive JsVal where
  | s : String → JsVal
  | n : Nat → JsVal
  | fnv : Nat → JsVal
  | objRef : Nat → JsVal
  | undef : JsVal

deriving DecidableEq, Repr

/-- Source `typeof value === "function"`. -/
def JsVal.isFunction : JsVal → Bool
  | .fnv _ => true
  | _ => false

/-- A JS object used as a string-keyed record, in property insertion order. -/
abbrev JsObj := List (String × JsVal)

/-- Source `obj[key]` read. -/
def jget (o : JsObj) (k : String) : Option JsVal :=
  (o.find? (fun p => p.1 = k)).map (·.2)

/-- Source `key in obj`. -/
def jhas (o : JsObj) (k : String) : Bool :=
  o.any (fun p => p.1 = k)

/-- Source `obj[key] = v`: update in place if present, append otherwise. -/
def jset (o : JsObj) (k : String) (v : JsVal) : JsObj :=
  if jhas o k then o.map (fun p => if p.1 = k then (k, v) else p)
  else o ++ [(k, v)]

/-- Source `delete obj[key]`. -/
def jdel (o : JsObj) (k : String) : JsObj :=
  o.filter (fun p => p.1 ≠ k)

/-- Source `Object.assign(dst, src)`. -/
def jassign (dst src : JsObj) : JsObj :=
  src.foldl (fun d p => jset d p.1 p.2) dst

/-- One `Record<ProviderKind, Record<string, unknown>>` of the source. -/
structure KindMaps where
  decorator : JsObj
  store : JsObj

deriving DecidableEq, Repr

def KindMaps.get (m : KindMaps) : Kind → JsObj
  | .decorator => m.decorator
  | .store => m.store

def KindMaps.set (m : KindMaps) : Kind → JsObj → KindMaps
  | .decorator, o => { m with decorator := o }
  | .store, o => { m with store := o }

def KindMaps.empty : KindMaps := ⟨[], []⟩

/-- Source `Object.assign` over every provider kind (the propagation pass). -/
def kmAssign (dst src : KindMaps) : KindMaps :=
  PROVIDER_KINDS.foldl (fun d k => d.set k (jassign (d.get k) (src.get k))) dst

/-- Source `ProviderEntry` (types.ts).  `export` is a Lean keyword, hence
`export'`.  `mode`/scope strings are kept as strings exactly as the runtime
compares them. -/
structure ProviderEntry where
  kind : Kind
  key : String
  value : JsVal
  export' : Bool
  transitive : Bool
  isFactory : Bool
  mode : String

deriving DecidableEq, Repr

/-- A scope identity (`string | symbol`).  `globalScope` is the process-wide
`Symbol.for("aether:use:global")`; `sym` are `Symbol(...)` calls identified by
a fresh counter value; `root` is the per-`start()` `Symbol("root:" + name)`
(fresh, so by construction distinct from every edge scope id). -/
inductive ScopeId where
  | globalScope
  | str : String → ScopeId
  | sym : Nat → ScopeId
  | root : String → ScopeId

deriving DecidableEq, Repr

/-- Source `UseEdge` (types.ts).  `transitive` is optional in the TS type but
always written by `use()`; `#initModule` treats a missing value as `true`
(`edge.transitive !== false`), which the `Bool` here reflects for all
builder-produced edges. -/
structure UseEdge where
  name : String
  defId : Nat
  scopeId : Option ScopeId
  transitive : Bool

deriving DecidableEq, Repr

/-- Source `ModuleDefinition` (types.ts); callbacks are opaque tags interpreted
by `Env`. -/
structure ModuleDefinition where
  providers : List ProviderEntry
  loadCallbacks : List Nat
  unloadCallbacks : List Nat
  uses : List UseEdge

deriving DecidableEq, Repr

/-- Source `Aether.#emptyDef()`. -/
def emptyDef : ModuleDefinition := ⟨[], [], [], []⟩

/-- Source `ProviderOrigin` (types.ts). -/
structure ProviderOrigin where
  kind : Kind
  key : String
  moduleName : String
  isExported : Bool

deriving DecidableEq, Repr

/-- The `Map<string, ProviderOrigin>` keyed by `"kind:key"`; the key is kept
as the pair (the concatenation is injective since kinds contain no colon). -/
abbrev Origins := List ((Kind × String) × ProviderOrigin)

def originsGet (os : Origins) (k : Kind × String) : Option ProviderOrigin :=
  (os.find? (fun e => e.1 = k)).map (·.2)

/-- Source `Map.set` semantics: replace if present, append otherwise. -/
def originsSet (os : Origins) (k : Kind × String) (v : ProviderOrigin) : Origins :=
  if os.any (fun e => e.1 = k) then os.map (fun e => if e.1 = k then (k, v) else e)
  else os ++ [(k, v)]

/-- The merged callback context
`{ ...providers.decorator, decorator: providers.decorator, store: providers.store }`.
The flattened spread part is the `decorator` map itself (the two added
property names shadow any spread key of the same name; the builder's
reserved-key check keeps `decorator` out of that map). -/
structure CallbackContext where
  decorator : JsObj
  store : JsObj

deriving DecidableEq, Repr

/-- Source `ModuleRuntimeContext` (types.ts).  `def` becomes `defId` (an
object reference into the definition heap), `children` are runtime-node ids
into the node store of one `start()` call. -/
structure RuntimeNode where
  name : String
  defId : Nat
  initialized : Bool
  providers : KindMaps
  exportedProviders : KindMaps
  propagatedProviders : KindMaps
  providerOrigins : Origins
  callbackCtx : Option CallbackContext
  children : List Nat

deriving DecidableEq, Repr

/-- Errors thrown by the runtime; constructors abstract the message strings of
the source's `throw new Error(...)` sites. -/
inductive AetherError where
  | reservedKey (kind : Kind) (key : String)
  | alreadyDefined (kind : Kind) (key : String)
  | applyCollision (kind : Kind) (key : String) (fromModule : Option String)
  | importCollision (kind : Kind) (key : String) (fromModule : Option String)
  | notStarted (name : String)
  | extensionCollision (name : String)
  | provideNeedsOptions
  | invalidArguments
  | notAFunction
  | userError (tag : Nat)

deriving DecidableEq, Repr

/-- The context handed to a decorator factory
(`{...local.decorator, decorator: local.decorator, store: local.store}`),
or the bare `local[kind]` map for the other kind. -/
inductive FactoryCtx where
  | full : JsObj → JsObj → JsObj → FactoryCtx
  | bare : JsObj → FactoryCtx

deriving DecidableEq, Repr

/-- Interpretation of the opaque function tags: what a factory function
returns (or throws) on a context, and what a lifecycle callback does
(`none` = returned normally, `some e` = threw `e`). -/
structure Env where
  applyFactory : Nat → FactoryCtx → Except AetherError JsVal
  runCb : Nat → Option CallbackContext → Option AetherError

deriving instance DecidableEq for Except

/-- Source `ResolvedConfig`.  Scope and mode stay strings exactly as the
runtime compares them (`"local"`, `"global"`, `"append"`, `"override"`). -/
structure ResolvedConfig where
  kind : Kind
  scope : String
  mode : String

deriving DecidableEq, Repr

/-- Source `ParsedArgs`. -/
structure ParsedArgs where
  entries : List (String × JsVal)
  config : ResolvedConfig
  isObjectForm : Bool

deriving DecidableEq, Repr

/-- Source `Aether.#pushEntry`.  `origProviders` is `this.#def.providers`
(the pre-call definition the duplicate check reads), `d` the copied
definition being extended. -/
def pushEntry (origProviders : List ProviderEntry) (d : ModuleDefinition)
    (key : String) (value : JsVal) (cfg : ResolvedConfig) (forceStatic : Bool) :
    Except AetherError ModuleDefinition :=
  if key = reservedKey cfg.kind then
    .error (.reservedKey cfg.kind key)
  else if cfg.mode = "append" ∧ origProviders.any (fun p => p.kind = cfg.kind ∧ p.key = key) then
    .error (.alreadyDefined cfg.kind key)
  else
    .ok { d with providers := d.providers ++ [{
      kind := cfg.kind
      key := key
      value := value
      export' := cfg.scope != "local"
      transitive := cfg.scope == "global"
      isFactory := if forceStatic then false else value.isFunction
      mode := cfg.mode }] }

/-- An options object as `#isOpts` examines it: the `kind`, `scope` and `mode`
properties (absent = `undefined`). -/
structure OptsObj where
  kind : Option Kind
  scope : Option String
  mode : Option String

deriving DecidableEq, Repr

/-- One argument of a `decorate`/`state`/`provide` call.  The JS value space
is partitioned by how `#parseArgs`/`#isOpts` inspect it: `v` covers
non-plain-object values, `mapping` plain objects without `scope`/`kind`
string properties (bulk declarations), `opts` plain objects whose
`scope`/`kind`/`mode` properties are as recorded. -/
inductive CallArg where
  | v : JsVal → CallArg
  | mapping : List (String × JsVal) → CallArg
  | opts : OptsObj → CallArg

deriving DecidableEq, Repr

/-- Source `Aether.#isOpts`: a non-array object with a string `scope` or a
string `kind` property (`mode` alone is not checked). -/
def isOpts : CallArg → Bool
  | .opts o => o.scope.isSome || o.kind.isSome
  | _ => false

/-- A `CallArg` read back as a plain value (`unknown` in a value position).
Plain objects in a value position are collapsed to opaque references; no
claim exercises an object-valued provider. -/
def CallArg.asVal : CallArg → JsVal
  | .v x => x
  | .mapping _ => .objRef 0
  | .opts _ => .objRef 1

/-- The fields of an options object seen through `Object.entries` when such an
object reaches the bulk-declaration branch of `#parseArgs`. -/
def optsFields (o : OptsObj) : List (String × JsVal) :=
  (match o.kind with
    | some k => [("kind", JsVal.s (reservedKey k))]
    | none => []) ++
  (match o.scope with
    | some sc => [("scope", JsVal.s sc)]
    | none => []) ++
  (match o.mode with
    | some m => [("mode", JsVal.s m)]
    | none => [])

/-- Source `defaultKind: "provide" | ProviderKind` parameter of `#parseArgs`. -/
inductive DefaultKind where
  | provide
  | kind : Kind → DefaultKind

deriving DecidableEq, Repr

/-- Source `Aether.#parseArgs`. -/
def parseArgs (args : List CallArg) (defaultKind : DefaultKind) :
    Except AetherError ParsedArgs :=
  let last := args.getLast?
  let hasOpts : Bool := match last with
    | some a => isOpts a
    | none => false
  if defaultKind = .provide ∧ hasOpts = false then
    .error .provideNeedsOptions
  else
    let opts : Option OptsObj := match last with
      | some (.opts o) => if (isOpts (.opts o)) then some o else none
      | _ => none
    let kind : Kind := ((opts.bind (·.kind)).getD
      (match defaultKind with
        | .provide => .decorator
        | .kind k => k))
    let scope : String := (opts.bind (·.scope)).getD "local"
    let mode : String := (opts.bind (·.mode)).getD "append"
    let config : ResolvedConfig := ⟨kind, scope, mode⟩
    let argsWithoutOpts := if hasOpts then args.dropLast else args
    match argsWithoutOpts[0]? with
    | some (CallArg.v (JsVal.s key)) =>
        let value : JsVal := match argsWithoutOpts[1]? with
          | some a => a.asVal
          | none => .undef
        .ok ⟨[(key, value)], config, false⟩
    | some (CallArg.mapping m) => .ok ⟨m, config, true⟩
    | some (CallArg.opts o) => .ok ⟨optsFields o, config, true⟩
    | some (CallArg.v _) => .error .invalidArguments
    | none => .error .invalidArguments

/-- Source `Aether.#addProviders`: push every parsed entry, each duplicate
check reading the original (pre-call) provider list. -/
def addProviders (origProviders : List ProviderEntry) (parsed : ParsedArgs)
    (d : ModuleDefinition) : Except AetherError ModuleDefinition :=
  parsed.entries.foldlM
    (fun dd kv => pushEntry origProviders dd kv.1 kv.2 parsed.config parsed.isObjectForm) d

/-- Source `Aether.#applyEntry`: resolve one of the node's own provider
entries into the three maps and the origin map. -/
def applyEntry (env : Env) (entry : ProviderEntry) (moduleName : String)
    (locals exported propagated : KindMaps) (origins : Origins) :
    Except AetherError (KindMaps × KindMaps × KindMaps × Origins) :=
  let kind := entry.kind
  let key := entry.key
  let originKey := (kind, key)
  if entry.mode = "append" ∧ jhas (locals.get kind) key then
    .error (.applyCollision kind key ((originsGet origins originKey).map (·.moduleName)))
  else
    let factoryCtx : FactoryCtx := match kind with
      | .decorator => .full locals.decorator locals.decorator locals.store
      | k => .bare (locals.get k)
    let resolvedE : Except AetherError JsVal :=
      if entry.isFactory then
        match entry.value with
        | .fnv tag => env.applyFactory tag factoryCtx
        | _ => .error .notAFunction
      else .ok entry.value
    match resolvedE with
    | .error e => .error e
    | .ok resolved =>
      let exported1 :=
        if entry.mode = "override" then exported.set kind (jdel (exported.get kind) key)
        else exported
      let propagated1 :=
        if entry.mode = "override" then propagated.set kind (jdel (propagated.get kind) key)
        else propagated
      let locals1 := locals.set kind (jset (locals.get kind) key resolved)
      let exported2 :=
        if entry.export' then exported1.set kind (jset (exported1.get kind) key resolved)
        else exported1
      let propagated2 :=
        if entry.export' ∧ entry.transitive then
          propagated1.set kind (jset (propagated1.get kind) key resolved)
        else propagated1
      .ok (locals1, exported2, propagated2,
        originsSet origins originKey ⟨kind, key, moduleName, entry.export'⟩)

/-- The cache (`WeakMap<ModuleDefinition, Map<string | symbol, Node>>`,
flattened) together with the node store of one `start()` call. -/
structure BuildState where
  cache : List ((Nat × ScopeId) × Nat)
  nodes : List RuntimeNode

deriving DecidableEq, Repr

def BuildState.empty : BuildState := ⟨[], []⟩

def cacheGet (st : BuildState) (defId : Nat) (scopeId : ScopeId) : Option Nat :=
  (st.cache.find? (fun e => e.1 = (defId, scopeId))).map (·.2)

/-- One unfolding of `Aether.#buildTree`, with the recursive call abstracted
as `recur` (the builder at the remaining recursion depth).  Note the source
order: the children are built (`def.uses.map(u => this.#buildTree(u.name,
u.def, cache, u.scopeId ?? GLOBAL_SCOPE))`) while the node object literal is
being constructed, and only then is the node inserted into the cache. -/
def buildTreeStep (heap : Nat → ModuleDefinition)
    (recur : String → Nat → ScopeId → BuildState → Option (Nat × BuildState))
    (name : String) (defId : Nat) (scopeId : ScopeId) (st : BuildState) :
    Option (Nat × BuildState) :=
  match cacheGet st defId scopeId with
  | some nid => some (nid, st)
  | none =>
    let d := heap defId
    let childrenE := d.uses.foldl
      (fun acc u =>
        match acc with
        | none => none
        | some (ids, st1) =>
          match recur u.name u.defId (u.scopeId.getD ScopeId.globalScope) st1 with
          | none => none
          | some (cid, st2) => some (ids ++ [cid], st2))
      (some ([], st))
    match childrenE with
    | none => none
    | some (childIds, st') =>
      let node : RuntimeNode :=
        { name := name, defId := defId, initialized := false
          providers := KindMaps.empty, exportedProviders := KindMaps.empty
          propagatedProviders := KindMaps.empty, providerOrigins := []
          callbackCtx := none, children := childIds }
      let nid := st'.nodes.length
      some (nid, ⟨((defId, scopeId), nid) :: st'.cache, st'.nodes ++ [node]⟩)

/-- Source `Aether.#buildTree`.  The fuel bounds the recursion depth (it
decreases per depth level, exactly like the JS call stack); `none` models a
recursion that never returns (possible on cyclic definition graphs). -/
def buildTree (heap : Nat → ModuleDefinition) :
    Nat → String → Nat → ScopeId → BuildState → Option (Nat × BuildState)
  | 0, _, _, _, _ => none
  | fuel + 1, name, defId, scopeId, st =>
    buildTreeStep heap (buildTree heap fuel) name defId scopeId st

/-- Accumulator of `#initModule`'s import/propagation passes over the
current node's mutable maps. -/
structure ResolveAcc where
  prov : KindMaps
  expd : KindMaps
  prop : KindMaps
  orgs : Origins

deriving DecidableEq, Repr

/-- The inner import loop of `#initModule` for one child: copy every entry of
the child's `exported` maps, per kind, erroring on a key already present. -/
def importChild (child : RuntimeNode) (prov : KindMaps) (orgs : Origins) :
    Except AetherError (KindMaps × Origins) :=
  PROVIDER_KINDS.foldlM
    (fun (acc : KindMaps × Origins) kind =>
      (child.exportedProviders.get kind).foldlM
        (fun (acc' : KindMaps × Origins) kv =>
          if jhas (acc'.1.get kind) kv.1 then
            .error (.importCollision kind kv.1
              ((originsGet acc'.2 (kind, kv.1)).map (·.moduleName)))
          else
            .ok (acc'.1.set kind (jset (acc'.1.get kind) kv.1 kv.2),
              originsSet acc'.2 (kind, kv.1) ⟨kind, kv.1, child.name, true⟩))
        acc)
    (prov, orgs)

/-- A placeholder node for the (builder-unreachable) case of a dangling node
id; `#initModule`/`#lifecycleOrder` never meet one on trees produced by
`#buildTree`. -/
def dummyNode : RuntimeNode :=
  ⟨"", 0, false, KindMaps.empty, KindMaps.empty, KindMaps.empty, [], none, []⟩

def nodeAt (nodes : List RuntimeNode) (i : Nat) : RuntimeNode :=
  nodes.getD i dummyNode

/-- Source `Aether.#initModule`: import from children, propagate transitive
providers, apply the node's own entries, build the callback context, mark
initialized.  The node store plays the role of the mutable node objects. -/
def initModule (env : Env) (heap : Nat → ModuleDefinition)
    (nodes : List RuntimeNode) (nid : Nat) : Except AetherError (List RuntimeNode) :=
  match nodes[nid]? with
  | none => .ok nodes
  | some ctx =>
    if ctx.initialized then .ok nodes
    else
      let d := heap ctx.defId
      let accE : Except AetherError ResolveAcc :=
        (ctx.children.zip d.uses).foldlM
          (fun (acc : ResolveAcc) cu =>
            match nodes[cu.1]? with
            | none => .ok acc
            | some child =>
              match importChild child acc.prov acc.orgs with
              | .error e => .error e
              | .ok (prov', orgs') =>
                if cu.2.transitive then
                  .ok ⟨prov', kmAssign acc.expd child.propagatedProviders,
                    kmAssign acc.prop child.propagatedProviders, orgs'⟩
                else
                  .ok ⟨prov', acc.expd, acc.prop, orgs'⟩)
          ⟨ctx.providers, ctx.exportedProviders, ctx.propagatedProviders, ctx.providerOrigins⟩
      match accE with
      | .error e => .error e
      | .ok acc =>
        let appliedE : Except AetherError (KindMaps × KindMaps × KindMaps × Origins) :=
          d.providers.foldlM
            (fun (m : KindMaps × KindMaps × KindMaps × Origins) entry =>
              applyEntry env entry ctx.name m.1 m.2.1 m.2.2.1 m.2.2.2)
            (acc.prov, acc.expd, acc.prop, acc.orgs)
        match appliedE with
        | .error e => .error e
        | .ok (prov, expd, prop, orgs) =>
          .ok (nodes.set nid
            { ctx with
              providers := prov
              exportedProviders := expd
              propagatedProviders := prop
              providerOrigins := orgs
              callbackCtx := some ⟨prov.decorator, prov.store⟩
              initialized := true })

/-- One unfolding of the `visit` closure of `Aether.#lifecycleOrder`: mark
visited on entry, recurse into the children, push the node after them
(post-order). -/
def visitStep (nodes : List RuntimeNode)
    (recur : Nat → List Nat × List Nat → Option (List Nat × List Nat))
    (nid : Nat) (vo : List Nat × List Nat) : Option (List Nat × List Nat) :=
  if nid ∈ vo.1 then some vo
  else
    let res := (nodeAt nodes nid).children.foldl
      (fun acc c =>
        match acc with
        | none => none
        | some vo1 => recur c vo1)
      (some (nid :: vo.1, vo.2))
    match res with
    | none => none
    | some (visited', order') => some (visited', order' ++ [nid])

/-- The `visit` closure of `#lifecycleOrder`, fuelled by recursion depth. -/
def visitNode (nodes : List RuntimeNode) :
    Nat → Nat → List Nat × List Nat → Option (List Nat × List Nat)
  | 0, _, _ => none
  | fuel + 1, nid, vo => visitStep nodes (visitNode nodes fuel) nid vo

/-- Source `Aether.#lifecycleOrder`. -/
def lifecycleOrder (nodes : List RuntimeNode) (fuel : Nat) (root : Nat) :
    Option (List Nat) :=
  (visitNode nodes fuel root ([], [])).map (·.2)

/-- One observable step of a `start()`/`stop()` run: a provider-resolution
step for a node, or the invocation of one lifecycle callback (by tag) on a
node.  The trace is pure instrumentation used to state execution-order and
execution-count properties. -/
inductive Event where
  | init (nid : Nat)
  | cb (nid : Nat) (tag : Nat)

deriving DecidableEq, Repr

/-- Run a node's callbacks in sequence (each fully awaited); a throwing
callback aborts the rest.  The callback is recorded as invoked even when it
throws. -/
def runCbList (env : Env) (ctx : Option CallbackContext) (nid : Nat) :
    List Nat → List Event → List Event × Option AetherError
  | [], trace => (trace, none)
  | t :: rest, trace =>
    match env.runCb t ctx with
    | some e => (trace ++ [.cb nid t], some e)
    | none => runCbList env ctx nid rest (trace ++ [.cb nid t])

/-- The `for (const ctx of order)` loop of `start()`: initialize the node,
then run its `onLoad` callbacks. -/
def runLoadLoop (env : Env) (heap : Nat → ModuleDefinition) :
    List Nat → List RuntimeNode → List Event →
    List RuntimeNode × List Event × Option AetherError
  | [], nodes, trace => (nodes, trace, none)
  | nid :: rest, nodes, trace =>
    match initModule env heap nodes nid with
    | .error e => (nodes, trace, some e)
    | .ok nodes' =>
      let node := nodeAt nodes' nid
      match runCbList env node.callbackCtx nid (heap node.defId).loadCallbacks
          (trace ++ [.init nid]) with
      | (trace', some e) => (nodes', trace', some e)
      | (trace', none) => runLoadLoop env heap rest nodes' trace'

/-- The `for (const ctx of order)` loop of `stop()`: run each node's
`onUnload` callbacks. -/
def runUnloadLoop (env : Env) (heap : Nat → ModuleDefinition)
    (nodes : List RuntimeNode) :
    List Nat → List Event → List Event × Option AetherError
  | [], trace => (trace, none)
  | nid :: rest, trace =>
    let node := nodeAt nodes nid
    match runCbList env node.callbackCtx nid (heap node.defId).unloadCallbacks trace with
    | (trace', some e) => (trace', some e)
    | (trace', none) => runUnloadLoop env heap nodes rest trace'

/-- The runtime tree one `start()` call leaves behind: the root node id and
the node store (`#runtimeTree` holds the root node object; the other nodes
are reachable from it). -/
structure RuntimeTree where
  root : Nat
  nodes : List RuntimeNode

deriving DecidableEq, Repr

/-- The mutable per-instance state of one `Aether` object: its name, its
definition (by reference), its extension registry (name ↦ implementation
tag), `#running` and `#runtimeTree`. -/
structure AetherInst where
  name : String
  defId : Nat
  extensions : List (String × Nat)
  running : Bool
  runtimeTree : Option RuntimeTree

deriving DecidableEq, Repr

/-- Source `get context()`: throws unless `#running && #runtimeTree`; then
returns the root node's `callbackCtx` (which is still `null` while `start()`
is mid-flight, hence the `Option`). -/
def contextOf (a : AetherInst) : Except AetherError (Option CallbackContext) :=
  match a.runtimeTree with
  | some t => if a.running then .ok (nodeAt t.nodes t.root).callbackCtx
              else .error (.notStarted a.name)
  | none => .error (.notStarted a.name)

/-- Source `get isRunning()`. -/
def isRunningOf (a : AetherInst) : Bool := a.running

/-- Source `async start()`.  Returns `none` when the fuel runs out (the
recursion over the definition graph never came back); otherwise the
post-state of the instance, the error `start()` re-raised (if any), and the
instrumentation trace.  Mirrors the source order: tree and order are
computed first, `#runtimeTree`/`#running` are set before the loop, and the
`catch` resets both before re-throwing. -/
def startRun (env : Env) (heap : Nat → ModuleDefinition) (fuel : Nat)
    (a : AetherInst) : Option (AetherInst × Option AetherError × List Event) :=
  if a.running then some (a, none, [])
  else
    match buildTree heap fuel a.name a.defId (.root a.name) BuildState.empty with
    | none => none
    | some (rootId, st) =>
      match lifecycleOrder st.nodes fuel rootId with
      | none => none
      | some order =>
        match runLoadLoop env heap order st.nodes [] with
        | (nodes', trace, none) =>
          some ({ a with runtimeTree := some ⟨rootId, nodes'⟩, running := true }, none, trace)
        | (_, trace, some e) =>
          some ({ a with runtimeTree := none, running := false }, some e, trace)

/-- Source `async stop()`: no-op unless running; recompute the order from the
stored tree, reverse it, run `onUnload` callbacks; the `finally` resets
`#running`/`#runtimeTree` whether or not a callback threw. -/
def stopRun (env : Env) (heap : Nat → ModuleDefinition) (fuel : Nat)
    (a : AetherInst) : Option (AetherInst × Option AetherError × List Event) :=
  match a.runtimeTree with
  | some t =>
    if a.running then
      match lifecycleOrder t.nodes fuel t.root with
      | none => none
      | some order =>
        let (trace, err) := runUnloadLoop env heap t.nodes order.reverse []
        some ({ a with running := false, runtimeTree := none }, err, trace)
    else some (a, none, [])
  | none => some (a, none, [])

/-- The world the builder operations thread: the definition heap with its
allocation counter (object references), and the `Symbol(...)` freshness
counter. -/
structure World where
  heap : Nat → ModuleDefinition
  nextDef : Nat
  nextSym : Nat

def World.initial : World := ⟨fun _ => emptyDef, 0, 0⟩

def heapSet (h : Nat → ModuleDefinition) (i : Nat) (d : ModuleDefinition) :
    Nat → ModuleDefinition :=
  fun j => if j = i then d else h j

/-- Source `new Aether(name)`: a fresh empty definition object and an empty
extension registry; `#running = false`, `#runtimeTree = null`. -/
def mkAether (w : World) (name : String) : World × AetherInst :=
  (⟨heapSet w.heap w.nextDef emptyDef, w.nextDef + 1, w.nextSym⟩,
   ⟨name, w.nextDef, [], false, none⟩)

/-- Source `Aether.#next`: copy the definition, mutate the copy, return a
fresh instance carrying it (same name, same extensions, not running). -/
def nextOp (w : World) (a : AetherInst)
    (mutate : ModuleDefinition → Except AetherError ModuleDefinition) :
    Except AetherError (World × AetherInst) :=
  match mutate (w.heap a.defId) with
  | .error e => .error e
  | .ok d' =>
    .ok (⟨heapSet w.heap w.nextDef d', w.nextDef + 1, w.nextSym⟩,
      ⟨a.name, w.nextDef, a.extensions, false, none⟩)

/-- Source `decorate(...)` = `#addProviders(#parseArgs(args, "decorator"))`. -/
def decorateOp (w : World) (a : AetherInst) (args : List CallArg) :
    Except AetherError (World × AetherInst) :=
  match parseArgs args (.kind .decorator) with
  | .error e => .error e
  | .ok parsed => nextOp w a (addProviders (w.heap a.defId).providers parsed)

/-- Source `state(...)` = `#addProviders(#parseArgs(args, "store"))`. -/
def stateOp (w : World) (a : AetherInst) (args : List CallArg) :
    Except AetherError (World × AetherInst) :=
  match parseArgs args (.kind .store) with
  | .error e => .error e
  | .ok parsed => nextOp w a (addProviders (w.heap a.defId).providers parsed)

/-- Source `provide(...)` = `#addProviders(#parseArgs(args, "provide"))`. -/
def provideOp (w : World) (a : AetherInst) (args : List CallArg) :
    Except AetherError (World × AetherInst) :=
  match parseArgs args .provide with
  | .error e => .error e
  | .ok parsed => nextOp w a (addProviders (w.heap a.defId).providers parsed)

/-- Source `onLoad(cb)`. -/
def onLoadOp (w : World) (a : AetherInst) (tag : Nat) :
    Except AetherError (World × AetherInst) :=
  nextOp w a (fun d => .ok { d with loadCallbacks := d.loadCallbacks ++ [tag] })

/-- Source `onUnload(cb)`. -/
def onUnloadOp (w : World) (a : AetherInst) (tag : Nat) :
    Except AetherError (World × AetherInst) :=
  nextOp w a (fun d => .ok { d with unloadCallbacks := d.unloadCallbacks ++ [tag] })

/-- A `scope` argument of `use()`: a string or a symbol. -/
inductive UseScopeArg where
  | s : String → UseScopeArg
  | sym : Nat → UseScopeArg

deriving DecidableEq, Repr

/-- Source `Aether.#useScopeId`; default and `"global"` map to the shared
sentinel, `"local"` to a fresh symbol, anything else is used as given. -/
def useScopeId (w : World) (scope : Option UseScopeArg) : World × ScopeId :=
  match scope with
  | none => (w, .globalScope)
  | some (.s "global") => (w, .globalScope)
  | some (.s "local") => (⟨w.heap, w.nextDef, w.nextSym + 1⟩, .sym w.nextSym)
  | some (.s other) => (w, .str other)
  | some (.sym n) => (w, .sym n)

/-- The `plugin instanceof Aether` branch of `use()`: compute the scope id,
return the receiver unchanged when the identical `(definition, scopeId)`
edge already exists, otherwise append the edge (transitive unless
`as: "scoped"`) and merge the extension registries with collision
detection. -/
def useMod (w : World) (a plugin : AetherInst) (scope : Option UseScopeArg)
    (asOpt : Option String) : Except AetherError (World × AetherInst) :=
  let pluginDef := plugin.defId
  let (w1, scopeId) := useScopeId w scope
  if (w1.heap a.defId).uses.any
      (fun u => u.defId = pluginDef ∧ u.scopeId = some scopeId) then
    .ok (w1, a)
  else
    let nextDef := { w1.heap a.defId with
      uses := (w1.heap a.defId).uses ++
        [⟨plugin.name, pluginDef, some scopeId, asOpt != some "scoped"⟩] }
    match plugin.extensions.foldlM
        (fun (merged : List (String × Nat)) ni =>
          if merged.any (fun m => m.1 = ni.1) then
            Except.error (AetherError.extensionCollision ni.1)
          else .ok (merged ++ [ni]))
        a.extensions with
    | .error e => .error e
    | .ok merged =>
      .ok (⟨heapSet w1.heap w1.nextDef nextDef, w1.nextDef + 1, w1.nextSym⟩,
        ⟨a.name, w1.nextDef, merged, false, none⟩)

/-- A no-op interpretation: factories return `0`, callbacks succeed. -/
def env0 : Env := ⟨fun _ _ => .ok (.n 0), fun _ _ => none⟩

/-- Fallback pair for reading a builder result (never used on the claims'
inputs, which are error-free where extracted). -/
def noWorldInst : World × AetherInst :=
  (World.initial, ⟨"", 0, [], false, none⟩)

def getOkWA (r : Except AetherError (World × AetherInst)) : World × AetherInst :=
  match r with
  | .ok x => x
  | .error _ => noWorldInst

/-- The error of a builder call, if it raised one. -/
def builderErr {α : Type} (r : Except AetherError α) : Option AetherError :=
  match r with
  | .error e => some e
  | .ok _ => none

def runPost (r : Option (AetherInst × Option AetherError × List Event)) : AetherInst :=
  match r with
  | some (a, _, _) => a
  | none => ⟨"", 0, [], false, none⟩

def runErr (r : Option (AetherInst × Option AetherError × List Event)) :
    Option AetherError :=
  match r with
  | some (_, e, _) => e
  | none => none

def runTrace (r : Option (AetherInst × Option AetherError × List Event)) : List Event :=
  match r with
  | some (_, _, tr) => tr
  | none => []

def treeOf (a : AetherInst) : RuntimeTree :=
  a.runtimeTree.getD ⟨0, []⟩

/-! The diamond scenario of claim C2: a module `S` declaring a global store
provider and one `onLoad` callback, composed (with the default global use
scope) into two parents `A` and `B`, which a root composes in turn. -/

def c2S0 : World × AetherInst := mkAether World.initial "S"

def c2S1 : World × AetherInst :=
  getOkWA (stateOp c2S0.1 c2S0.2
    [.v (.s "cnt"), .v (.objRef 99), .opts ⟨none, some "scoped", none⟩])

/-- The shared module `S`, its definition object fixed from here on. -/
def c2S : World × AetherInst := getOkWA (onLoadOp c2S1.1 c2S1.2 7)

def c2A0 : World × AetherInst := mkAether c2S.1 "A"

def c2A : World × AetherInst := getOkWA (useMod c2A0.1 c2A0.2 c2S.2 none none)

def c2B0 : World × AetherInst := mkAether c2A.1 "B"

def c2B : World × AetherInst := getOkWA (useMod c2B0.1 c2B0.2 c2S.2 none none)

def c2R0 : World × AetherInst := mkAether c2B.1 "root"

def c2R1 : World × AetherInst := getOkWA (useMod c2R0.1 c2R0.2 c2A.2 none none)

def c2R : World × AetherInst := getOkWA (useMod c2R1.1 c2R1.2 c2B.2 none none)

def c2Run : Option (AetherInst × Option AetherError × List Event) :=
  startRun env0 c2R.1.heap 10 c2R.2

/-! Claim C4: the failing input `state("k", fn)` — a two-argument `state`
call with a function value. -/

def c4M0 : World × AetherInst := mkAether World.initial "m4"

def c4M : World × AetherInst :=
  getOkWA (stateOp c4M0.1 c4M0.2 [.v (.s "k"), .v (.fnv 5)])

/-- An interpretation where every factory call returns `42`, to make an
invocation observable. -/
def env42 : Env := ⟨fun _ _ => .ok (.n 42), fun _ _ => none⟩

def c4Run : Option (AetherInst × Option AetherError × List Event) :=
  startRun env42 c4M.1.heap 5 c4M.2

/-! Claim C9: counterexample input, a two-argument `state` call with a
function value, invoked as a factory even though it is not a
`decorate`/`provide` call. -/

def c9M0 : World × AetherInst := mkAether World.initial "m9"

def c9M : World × AetherInst :=
  getOkWA (stateOp c9M0.1 c9M0.2 [.v (.s "g"), .v (.fnv 8)])

/-- An interpretation marking the factory invocation of tag 8. -/
def env9 : Env :=
  ⟨fun t _ => if t = 8 then .ok (.s "invoked") else .ok .undef, fun _ _ => none⟩

def c9Run : Option (AetherInst × Option AetherError × List Event) :=
  startRun env9 c9M.1.heap 5 c9M.2

def getOkD (r : Except AetherError ModuleDefinition) : ModuleDefinition :=
  match r with
  | .ok d => d
  | .error _ => emptyDef

def getOkP (r : Except AetherError ParsedArgs) : ParsedArgs :=
  match r with
  | .ok p => p
  | .error _ => ⟨[], ⟨.decorator, "local", "append"⟩, false⟩

/-! Claim C6: duplicate declaration and override.  `c6M1` declares decorator
`"k"` with scope `"global"`; the counterexample then redeclares `"k"` with an
options object containing only `mode: "override"`. -/

def c6M0 : World × AetherInst := mkAether World.initial "m6"

def c6M1 : World × AetherInst :=
  getOkWA (decorateOp c6M0.1 c6M0.2
    [.v (.s "k"), .v (.n 1), .opts ⟨none, some "global", none⟩])

/-- The redeclaration with `{ mode: "override" }` alone. -/
def c6Cex : Except AetherError (World × AetherInst) :=
  decorateOp c6M1.1 c6M1.2 [.v (.s "k"), .v (.n 2), .opts ⟨none, none, some "override"⟩]

/-- The redeclaration with an options object also carrying a scope. -/
def c6Ov : World × AetherInst :=
  getOkWA (decorateOp c6M1.1 c6M1.2
    [.v (.s "k"), .v (.n 2), .opts ⟨none, some "local", some "override"⟩])

def c6Run : Option (AetherInst × Option AetherError × List Event) :=
  startRun env0 c6Ov.1.heap 5 c6Ov.2

/-! Claim C3: the chain A→B→C.  The definition heap fixes only the chain
shape (A uses B, B uses C, with the builder-default edge data); the modules'
own providers and callbacks are arbitrary. -/

def c3Heap (pA pB pC : List ProviderEntry) (lA lB lC uA uB uC : List Nat) :
    Nat → ModuleDefinition := fun i =>
  if i = 0 then ⟨pC, lC, uC, []⟩
  else if i = 1 then ⟨pB, lB, uB, [⟨"C", 0, some .globalScope, true⟩]⟩
  else ⟨pA, lA, uA, [⟨"B", 1, some .globalScope, true⟩]⟩

/-- A freshly built (uninitialized) runtime node. -/
def freshNode (nm : String) (d : Nat) (cs : List Nat) : RuntimeNode :=
  ⟨nm, d, false, KindMaps.empty, KindMaps.empty, KindMaps.empty, [], none, cs⟩

def c3Nodes : List RuntimeNode :=
  [freshNode "C" 0 [], freshNode "B" 1 [0], freshNode "A" 2 [1]]

def c3Cache : List ((Nat × ScopeId) × Nat) :=
  [((2, .root "A"), 2), ((1, .globalScope), 1), ((0, .globalScope), 0)]

/-- The concrete instance used for tracing callback order: no providers, one
load and one unload callback per module. -/
def c3HeapC : Nat → ModuleDefinition := c3Heap [] [] [] [10] [20] [30] [11] [21] [31]

def c3Start : Option (AetherInst × Option AetherError × List Event) :=
  startRun env0 c3HeapC 5 ⟨"A", 2, [], false, none⟩

def c3Stop : Option (AetherInst × Option AetherError × List Event) :=
  stopRun env0 c3HeapC 5 (runPost c3Start)

/-! Claim C10: a child module instance `C` composed into a parent `P`.
`start()` reads only the definition heap and writes only the receiver's
`#running`/`#runtimeTree` fields (the runtime tree is instantiated from the
module definitions, not from the child instances), which the model mirrors:
the child instance value is not an input of `startRun` at all. -/

def c10C0 : World × AetherInst := mkAether World.initial "C"

def c10C : World × AetherInst :=
  getOkWA (decorateOp c10C0.1 c10C0.2
    [.v (.s "k"), .v (.n 1), .opts ⟨none, some "global", none⟩])

def c10P0 : World × AetherInst := mkAether c10C.1 "P"

def c10P : World × AetherInst := getOkWA (useMod c10P0.1 c10P0.2 c10C.2 none none)

def c10Run : Option (AetherInst × Option AetherError × List Event) :=
  startRun env0 c10P.1.heap 5 c10P.2

def c5Heap : Nat → ModuleDefinition := fun _ => { emptyDef with loadCallbacks := [3] }

/-- An interpretation whose callback tag 3 throws. -/
def envFail : Env :=
  ⟨fun _ _ => .ok .undef, fun t _ => if t = 3 then some (.userError 7) else none⟩

def c5A : AetherInst := ⟨"F", 0, [], false, none⟩

/-- C5 exercised: the module whose only `onLoad` callback throws leaves the
instance reset with the error re-raised, and a subsequent `start()` under an
interpretation whose callbacks succeed goes through. -/

def exceptIsOk {ε α : Type} : Except ε α → Bool
  | .ok _ => true
  | .error _ => false

/-! Claim C8: the cache and cyclic definition graphs.  `cyclicHeap` is the
one-definition graph whose single UseEdge points back at itself. -/

def cyclicHeap : Nat → ModuleDefinition :=
  fun _ => { emptyDef with uses := [⟨"m", 0, some .globalScope, true⟩] }

/-! Claim C1: a chain of n+1 modules M0 … Mn, where the deepest module M0
declares decorator "p" with the scope under test and module M(i+1) uses Mi
with the builder-default edge (global scope identity, transitive).  Module
Mi sits at definition id i; the root is Mn, so the provider is declared n
levels below the root. -/

def nm (i : Nat) : String := "M" ++ toString i

/-- The definition the builder produces for `decorate("p", 0, { scope })` on
a fresh module (see the `pushEntry` bridge conjunct of the C1 theorem). -/
def chainLeafDef (scope : String) : ModuleDefinition :=
  { providers := [{
      kind := .decorator
      key := "p"
      value := .n 0
      export' := scope != "local"
      transitive := scope == "global"
      isFactory := false
      mode := "append" }]
    loadCallbacks := [], unloadCallbacks := [], uses := [] }

/-- The definition the builder produces for `use(M(i-1))` on a fresh module. -/
def chainMidDef (i : Nat) : ModuleDefinition :=
  { providers := [], loadCallbacks := [], unloadCallbacks := []
    uses := [{
      name := nm (i - 1)
      defId := i - 1
      scopeId := some .globalScope
      transitive := true }] }

def chainHeap (scope : String) : Nat → ModuleDefinition :=
  fun i => if i = 0 then chainLeafDef scope else chainMidDef i

def chainNode (i : Nat) : RuntimeNode :=
  freshNode (nm i) i (if i = 0 then [] else [i - 1])

def chainNodes (n : Nat) : List RuntimeNode := (List.range (n + 1)).map chainNode

def chainCache : Nat → List ((Nat × ScopeId) × Nat)
  | 0 => [((0, .globalScope), 0)]
  | i + 1 => ((i + 1, .globalScope), i + 1) :: chainCache i

/-- The root instance of the chain of depth `n`. -/
def chainRoot (n : Nat) : AetherInst := ⟨nm n, n, [], false, none⟩

/-! Predicted post-initialization node states along the chain, per provider
scope.  `pObj` is the one-entry decorator map `{ p: 0 }`. -/

def pObj : JsObj := [("p", JsVal.n 0)]

def initNode (i : Nat) (prov expd prop : JsObj) (orig : Origins) : RuntimeNode :=
  { name := nm i
    defId := i
    initialized := true
    providers := ⟨prov, []⟩
    exportedProviders := ⟨expd, []⟩
    propagatedProviders := ⟨prop, []⟩
    providerOrigins := orig
    callbackCtx := some ⟨prov, []⟩
    children := if i = 0 then [] else [i - 1] }

def origAt (j : Nat) (isExp : Bool) : Origins :=
  [((.decorator, "p"), ⟨.decorator, "p", nm j, isExp⟩)]

/-- Scope `"global"`: the provider is imported and re-propagated at every
level. -/
def chainInitG (i : Nat) : RuntimeNode := initNode i pObj pObj pObj (origAt (i - 1) true)

/-- Scope `"scoped"`: exported by the declarer, imported by the direct parent
only, propagated nowhere. -/
def chainInitS : Nat → RuntimeNode
  | 0 => initNode 0 pObj pObj [] (origAt 0 true)
  | 1 => initNode 1 pObj [] [] (origAt 0 true)
  | i + 2 => initNode (i + 2) [] [] [] []

/-- Scope `"local"`: visible in the declarer only. -/
def chainInitL : Nat → RuntimeNode
  | 0 => initNode 0 pObj [] [] (origAt 0 false)
  | i + 1 => initNode (i + 1) [] [] [] []

/-- The node store after the load loop has initialized nodes `0 … k-1`. -/
def chainMixed (pred : Nat → RuntimeNode) (n k : Nat) : List RuntimeNode :=
  (List.range (n + 1)).map (fun j => if j < k then pred j else chainNode j)

example : (startRun env0 (fun _ => emptyDef) 3 ⟨"x", 0, [], false, none⟩).isSome = true := by
  decide

example :
    runTrace (startRun env0
      (fun i => if i = 0 then { emptyDef with loadCallbacks := [5] }
        else { emptyDef with uses := [⟨"c", 0, some .globalScope, true⟩], loadCallbacks := [6] })
      4 ⟨"p", 1, [], false, none⟩) =
      [.init 0, .cb 0 5, .init 1, .cb 1 6] := by decide

/-- C2: within one `start()` of the root, the shared module `S` — composed
with the default (global) use scope by the two distinct parents `A` and `B`
— yields exactly one Runtime Node for its definition; its `onLoad` callback
(tag 7) is invoked exactly once over the whole run; and both parents'
callback contexts hold the very same value reference (`objRef 99`, modelling
the shared mutable store object, so mutations through either alias are
observed from both). -/
theorem c2_diamond_shares_one_runtime_node :
    runErr c2Run = none ∧
    (runPost c2Run).running = true ∧
    ((treeOf (runPost c2Run)).nodes.filter (fun nd => nd.defId = c2S.2.defId)).length = 1 ∧
    ((runTrace c2Run).filter
      (fun e => match e with | .cb _ 7 => true | _ => false)).length = 1 ∧
    (nodeAt (treeOf (runPost c2Run)).nodes 1).name = "A" ∧
    (nodeAt (treeOf (runPost c2Run)).nodes 2).name = "B" ∧
    (∃ cA, (nodeAt (treeOf (runPost c2Run)).nodes 1).callbackCtx = some cA ∧
      jget cA.store "cnt" = some (.objRef 99)) ∧
    (∃ cB, (nodeAt (treeOf (runPost c2Run)).nodes 2).callbackCtx = some cB ∧
      jget cB.store "cnt" = some (.objRef 99)) := by
  refine ⟨by decide, by decide, by decide, by decide, by decide, by decide, ?_, ?_⟩
  · exact ⟨⟨[], [("cnt", .objRef 99)]⟩, by decide, by decide⟩
  · exact ⟨⟨[], [("cnt", .objRef 99)]⟩, by decide, by decide⟩

theorem jget_map_update (o : JsObj) (k : String) (v : JsVal) :
    jget (o.map (fun p => if p.1 = k then (k, v) else p)) k =
      if jhas o k then some v else none := by
  induction o with
  | nil => simp [jget, jhas]
  | cons p t ih =>
    by_cases h : p.1 = k
    · simp [jget, jhas, h]
    · have hp : (if p.1 = k then (k, v) else p) = p := if_neg h
      simp only [List.map_cons, hp, jget, jhas] at ih ⊢
      have hfind : List.find? (fun q : String × JsVal => decide (q.1 = k))
          (p :: List.map (fun q => if q.1 = k then (k, v) else q) t) =
          List.find? (fun q : String × JsVal => decide (q.1 = k))
          (List.map (fun q => if q.1 = k then (k, v) else q) t) := by
        rw [List.find?_cons_of_neg]
        simp [h]
      rw [hfind]
      simp only [List.any_cons, h, decide_False, Bool.false_or]
      exact ih

theorem jget_jset_self (o : JsObj) (k : String) (v : JsVal) :
    jget (jset o k v) k = some v := by
  unfold jset
  by_cases h : jhas o k = true
  · rw [if_pos h, jget_map_update, if_pos h]
  · rw [if_neg h]
    have hfind : o.find? (fun p => decide (p.1 = k)) = none := by
      cases hf : o.find? (fun p => decide (p.1 = k)) with
      | none => rfl
      | some q =>
        have hq := List.find?_some hf
        have hmem := List.mem_of_find?_eq_some hf
        exact absurd (by
          simp only [jhas, List.any_eq_true]
          exact ⟨q, hmem, hq⟩) h
    simp [jget, List.find?_append, hfind]

theorem jhas_jdel_self (o : JsObj) (k : String) : jhas (jdel o k) k = false := by
  by_contra hcon
  rw [Bool.not_eq_false] at hcon
  simp only [jhas, jdel, List.any_eq_true, List.mem_filter, decide_eq_true_eq] at hcon
  obtain ⟨p, ⟨_, hne⟩, hk⟩ := hcon
  simp [hk] at hne

theorem KindMaps.get_set_self (m : KindMaps) (kind : Kind) (o : JsObj) :
    (m.set kind o).get kind = o := by
  cases kind <;> rfl

/-- C4 (against the claim; demonstrates the code bug): the two-argument
`state("k", fn)` call stores a ProviderEntry with `isFactory = true`
(`#pushEntry` computes `typeof value === "function"` for every
non-object-form call, `state` included), and after `start()` the context's
store holds the factory's return value (`42` under `env42`), not the
function value itself — contradicting the claim and `state()`'s own doc
comment that store values are stored as-is. -/
theorem c4_state_function_value_is_invoked_as_factory :
    (c4M.1.heap c4M.2.defId).providers =
      [⟨.store, "k", .fnv 5, false, false, true, "append"⟩] ∧
    runErr c4Run = none ∧
    (∃ ctx, contextOf (runPost c4Run) = .ok (some ctx) ∧
      jget ctx.store "k" = some (.n 42)) := by
  refine ⟨by decide, by decide, ⟨⟨[], [("k", .n 42)]⟩, by decide, by decide⟩⟩

/-- C9 counterexample: factory invocation does not only happen for the
two-argument form of `decorate`/`provide` — the two-argument `state("g", fn)`
call also yields `isFactory = true`, and `start()` invokes the function,
storing its result in the context. -/
theorem c9_counterexample_state_two_arg_invokes_factory :
    ((c9M.1.heap c9M.2.defId).providers.map (fun e => e.isFactory)) = [true] ∧
    runErr c9Run = none ∧
    (∃ ctx, contextOf (runPost c9Run) = .ok (some ctx) ∧
      jget ctx.store "g" = some (.s "invoked")) := by
  refine ⟨by decide, by decide, ⟨⟨[], [("g", .s "invoked")]⟩, by decide, by decide⟩⟩

/-- C9 (amended): bulk (object-form) declarations always produce
`isFactory = false` entries stored raw, and factory treatment happens exactly
for function values passed through the two-argument `(key, value)` call form
— of `decorate`, `provide` and `state` alike (not of `decorate`/`provide`
only, see the counterexample): `#parseArgs` marks the object form, every
object-form `#pushEntry` is forced static, a two-argument `#pushEntry`
computes `isFactory` from `typeof value`, and `#applyEntry` stores
non-factory values as-is while invoking factories. -/
theorem c9_amended_factory_exactly_for_two_arg_function_values :
    (∀ orig d k v cfg d', pushEntry orig d k v cfg true = .ok d' →
      ∃ e, d'.providers = d.providers ++ [e] ∧ e.isFactory = false ∧ e.value = v) ∧
    (∀ orig d k v cfg d', pushEntry orig d k v cfg false = .ok d' →
      ∃ e, d'.providers = d.providers ++ [e] ∧ e.isFactory = v.isFunction ∧ e.value = v) ∧
    (∀ m o dk p, parseArgs [.mapping m, .opts o] dk = .ok p → p.isObjectForm = true) ∧
    (∀ k v dk p, parseArgs [.v (.s k), .v v] dk = .ok p →
      p.isObjectForm = false ∧ p.entries = [(k, v)]) ∧
    (∀ env e nm l x pp o l' x' pp' o', e.isFactory = false →
      applyEntry env e nm l x pp o = .ok (l', x', pp', o') →
      jget (l'.get e.kind) e.key = some e.value) ∧
    (∀ env e nm l x pp o l' x' pp' o' t rv, e.isFactory = true → e.value = .fnv t →
      env.applyFactory t (match e.kind with
        | .decorator => .full l.decorator l.decorator l.store
        | k => .bare (l.get k)) = .ok rv →
      applyEntry env e nm l x pp o = .ok (l', x', pp', o') →
      jget (l'.get e.kind) e.key = some rv) := by
  refine ⟨?_, ?_, ?_, ?_, ?_, ?_⟩
  · intro orig d k v cfg d' h
    unfold pushEntry at h
    split at h
    · simp at h
    · split at h
      · simp at h
      · simp only [Except.ok.injEq] at h
        subst h
        exact ⟨_, rfl, rfl, rfl⟩
  · intro orig d k v cfg d' h
    unfold pushEntry at h
    split at h
    · simp at h
    · split at h
      · simp at h
      · simp only [Except.ok.injEq] at h
        subst h
        exact ⟨_, rfl, rfl, rfl⟩
  · intro m o dk p h
    cases dk with
    | provide =>
      by_cases hb : (o.scope.isSome || o.kind.isSome) = true
      · simp [parseArgs, isOpts, hb] at h
        cases h
        rfl
      · simp [parseArgs, isOpts, hb] at h
    | kind kd =>
      by_cases hb : (o.scope.isSome || o.kind.isSome) = true
      · simp [parseArgs, isOpts, hb] at h
        cases h
        rfl
      · simp [parseArgs, isOpts, hb] at h
        cases h
        rfl
  · intro k v dk p h
    cases dk with
    | provide => simp [parseArgs, isOpts] at h
    | kind kd =>
      simp [parseArgs, isOpts, CallArg.asVal] at h
      cases h
      exact ⟨rfl, rfl⟩
  · intro env e nm l x pp o l' x' pp' o' he h
    unfold applyEntry at h
    rw [he] at h
    by_cases hc : e.mode = "append" ∧ jhas (l.get e.kind) e.key = true
    · rw [if_pos hc] at h
      exact absurd h (by simp)
    · rw [if_neg hc] at h
      simp only [Bool.false_eq_true, if_false, Except.ok.injEq, Prod.mk.injEq] at h
      obtain ⟨h1, -⟩ := h
      rw [← h1, KindMaps.get_set_self, jget_jset_self]
  · intro env e nm l x pp o l' x' pp' o' t rv he hv hf h
    unfold applyEntry at h
    rw [he, hv] at h
    by_cases hc : e.mode = "append" ∧ jhas (l.get e.kind) e.key = true
    · rw [if_pos hc] at h
      exact absurd h (by simp)
    · rw [if_neg hc] at h
      dsimp only at h
      rw [hf] at h
      simp only [if_true, Except.ok.injEq, Prod.mk.injEq] at h
      obtain ⟨h1, -⟩ := h
      rw [← h1, KindMaps.get_set_self, jget_jset_self]

/-- C9 amended, exercised: a concrete object-form push is stored static, a
concrete two-argument push of a function value is stored as a factory, and a
concrete non-factory entry is stored raw by `#applyEntry`. -/
theorem c9_amended_witness :
    (∃ e, (getOkD (pushEntry [] emptyDef "w" (.fnv 3) ⟨.decorator, "local", "append"⟩ true)).providers =
        emptyDef.providers ++ [e] ∧ e.isFactory = false ∧ e.value = .fnv 3) ∧
    (∃ e, (getOkD (pushEntry [] emptyDef "w" (.fnv 3) ⟨.decorator, "local", "append"⟩ false)).providers =
        emptyDef.providers ++ [e] ∧ e.isFactory = (JsVal.fnv 3).isFunction ∧ e.value = .fnv 3) ∧
    (getOkP (parseArgs [.mapping [("a", .n 1)], .opts ⟨none, some "global", none⟩]
      (.kind .decorator))).isObjectForm = true ∧
    ((getOkP (parseArgs [.v (.s "a"), .v (.n 1)] (.kind .store))).isObjectForm = false ∧
      (getOkP (parseArgs [.v (.s "a"), .v (.n 1)] (.kind .store))).entries = [("a", .n 1)]) :=
  ⟨c9_amended_factory_exactly_for_two_arg_function_values.1 [] emptyDef "w" (.fnv 3)
      ⟨.decorator, "local", "append"⟩ _ (by decide),
   c9_amended_factory_exactly_for_two_arg_function_values.2.1 [] emptyDef "w" (.fnv 3)
      ⟨.decorator, "local", "append"⟩ _ (by decide),
   c9_amended_factory_exactly_for_two_arg_function_values.2.2.1 [("a", .n 1)]
      ⟨none, some "global", none⟩ (.kind .decorator) _ (by decide),
   c9_amended_factory_exactly_for_two_arg_function_values.2.2.2.1 "a" (.n 1)
      (.kind .store) _ (by decide)⟩

/-- C6 counterexample: redeclaring an existing key with `mode: "override"`
does not always succeed — `#isOpts` only recognizes an options object by a
string `scope` or `kind` property, so `{ mode: "override" }` alone is not
treated as options, the call runs in default `append` mode, and raises the
duplicate-key CollisionError. -/
theorem c6_counterexample_mode_only_override_raises :
    builderErr c6Cex = some (.alreadyDefined .decorator "k") := by decide

/-- C6 (amended): declaring the same key twice for the same kind in one
module's own declarations under default `append` mode raises a
CollisionError at the builder call; redeclaring the key with `mode:
"override"` — through an options object that `#isOpts` recognizes, i.e. one
also carrying a `scope` or `kind` field — succeeds, and at resolution time
the override first deletes any existing exported/propagated record for the
key before writing, so a local-scoped override also un-exports a previously
exported key while the local value is replaced. -/
theorem c6_amended_append_collides_and_recognized_override_unexports :
    (∀ orig d k v kind sc fs, k ≠ reservedKey kind →
      orig.any (fun p => p.kind = kind ∧ p.key = k) = true →
      pushEntry orig d k v ⟨kind, sc, "append"⟩ fs = .error (.alreadyDefined kind k)) ∧
    (∀ env e nm l x pp o l' x' pp' o', e.mode = "override" → e.export' = false →
      e.isFactory = false →
      applyEntry env e nm l x pp o = .ok (l', x', pp', o') →
      jget (l'.get e.kind) e.key = some e.value ∧
      jhas (x'.get e.kind) e.key = false ∧ jhas (pp'.get e.kind) e.key = false) ∧
    builderErr (decorateOp c6M1.1 c6M1.2
      [.v (.s "k"), .v (.n 2), .opts ⟨none, some "local", some "override"⟩]) = none ∧
    (c6Ov.1.heap c6Ov.2.defId).providers =
      [⟨.decorator, "k", .n 1, true, true, false, "append"⟩,
       ⟨.decorator, "k", .n 2, false, false, false, "override"⟩] ∧
    runErr c6Run = none ∧
    (∃ ctx, contextOf (runPost c6Run) = .ok (some ctx) ∧
      jget ctx.decorator "k" = some (.n 2)) ∧
    jhas ((nodeAt (treeOf (runPost c6Run)).nodes 0).exportedProviders.decorator) "k" = false ∧
    jhas ((nodeAt (treeOf (runPost c6Run)).nodes 0).propagatedProviders.decorator) "k" = false := by
  refine ⟨?_, ?_, by decide, by decide, by decide, ?_, by decide, by decide⟩
  · intro orig d k v kind sc fs hk hany
    unfold pushEntry
    rw [if_neg hk, if_pos ⟨rfl, hany⟩]
  · intro env e nm l x pp o l' x' pp' o' hm hx hfac h
    unfold applyEntry at h
    rw [hm, hx, hfac] at h
    rw [if_neg (by simp)] at h
    simp only [Bool.false_eq_true, if_false, Except.ok.injEq, Prod.mk.injEq] at h
    obtain ⟨hl, hxp, hpp, -⟩ := h
    refine ⟨?_, ?_, ?_⟩
    · rw [← hl, KindMaps.get_set_self, jget_jset_self]
    · rw [← hxp]
      simp only [if_true]
      rw [KindMaps.get_set_self, jhas_jdel_self]
    · rw [← hpp]
      simp only [if_true, false_and, if_false]
      rw [KindMaps.get_set_self, jhas_jdel_self]
  · exact ⟨⟨[("k", .n 2)], []⟩, by decide, by decide⟩

/-- C6 amended, exercised at concrete inputs. -/
theorem c6_amended_witness :
    (pushEntry [⟨.decorator, "q", .n 1, false, false, false, "append"⟩] emptyDef "q" (.n 2)
        ⟨.decorator, "local", "append"⟩ false = .error (.alreadyDefined .decorator "q")) ∧
    (jget ((⟨[("k", JsVal.n 9)], []⟩ : KindMaps).get .decorator) "k" = some (.n 9) ∧
      jhas ((⟨[], []⟩ : KindMaps).get .decorator) "k" = false ∧
      jhas ((⟨[], []⟩ : KindMaps).get .decorator) "k" = false) :=
  ⟨c6_amended_append_collides_and_recognized_override_unexports.1
      [⟨.decorator, "q", .n 1, false, false, false, "append"⟩] emptyDef "q" (.n 2)
      .decorator "local" false (by decide) (by decide),
   c6_amended_append_collides_and_recognized_override_unexports.2.1
      env0 ⟨.decorator, "k", .n 9, false, false, false, "override"⟩ "m"
      KindMaps.empty ⟨[("k", .n 1)], []⟩ ⟨[("k", .n 1)], []⟩ []
      ⟨[("k", .n 9)], []⟩ ⟨[], []⟩ ⟨[], []⟩
      [((.decorator, "k"), ⟨.decorator, "k", "m", false⟩)]
      rfl rfl rfl (by decide)⟩

/-- C3: for every chain A uses B, B uses C (whatever the three modules'
providers and callbacks are), the tree built at `start()` is C, B, A as nodes
0, 1, 2, the computed load order is exactly `[C, B, A]` (post-order, each
node once), and the unload order `stop()` runs — the reverse of that order —
is exactly `[A, B, C]`.  On the concrete instance with one callback per
module, the executed callback sequences follow those orders. -/
theorem c3_chain_load_order_post_order_and_stop_reverses
    (pA pB pC : List ProviderEntry) (lA lB lC uA uB uC : List Nat) :
    buildTree (c3Heap pA pB pC lA lB lC uA uB uC) 5 "A" 2 (.root "A") BuildState.empty =
      some (2, ⟨c3Cache, c3Nodes⟩) ∧
    lifecycleOrder c3Nodes 5 2 = some [0, 1, 2] ∧
    [0, 1, 2].map (fun i => (nodeAt c3Nodes i).name) = ["C", "B", "A"] ∧
    ([0, 1, 2].reverse).map (fun i => (nodeAt c3Nodes i).name) = ["A", "B", "C"] ∧
    runErr c3Start = none ∧
    runTrace c3Start = [.init 0, .cb 0 30, .init 1, .cb 1 20, .init 2, .cb 2 10] ∧
    runErr c3Stop = none ∧
    runTrace c3Stop = [.cb 2 11, .cb 1 21, .cb 0 31] := by
  exact ⟨rfl, by decide, by decide, by decide, by decide, by decide, by decide, by decide⟩

/-- C10: after `P.start()` succeeds (the parent is Running and its context
holds the child's exported decorator), the composed child instance `C` is
still not running and accessing its context still raises the not-started
error. -/
theorem c10_start_changes_only_the_receiver :
    runErr c10Run = none ∧
    (runPost c10Run).running = true ∧
    (∃ ctx, contextOf (runPost c10Run) = .ok (some ctx) ∧
      jget ctx.decorator "k" = some (.n 1)) ∧
    isRunningOf c10C.2 = false ∧
    contextOf c10C.2 = .error (.notStarted "C") := by
  refine ⟨by decide, by decide, ⟨⟨[("k", .n 1)], []⟩, by decide, by decide⟩,
    by decide, by decide⟩

/-- C5: every erroring `start()` run ends with the receiver reset to its
not-started state: the partially built tree is discarded
(`#runtimeTree = null`), `isRunning` is false, the context accessor raises
again, and the error is the one re-raised (it is returned alongside the
post-state).  Since `running` is false again, a subsequent `start()` takes
the full build path rather than the already-running no-op. -/
theorem c5_failed_start_discards_tree_resets_and_reraises :
    ∀ env heap fuel a a' e tr, startRun env heap fuel a = some (a', some e, tr) →
      a' = { a with running := false, runtimeTree := none } ∧
      isRunningOf a' = false ∧ a'.runtimeTree = none ∧
      contextOf a' = .error (.notStarted a.name) := by
  intro env heap fuel a a' e tr h
  unfold startRun at h
  by_cases hr : a.running = true
  · rw [if_pos hr] at h
    simp at h
  · rw [if_neg hr] at h
    split at h
    · simp at h
    · split at h
      · simp at h
      · split at h
        · simp at h
        · simp only [Option.some.injEq, Prod.mk.injEq] at h
          obtain ⟨ha, -, -⟩ := h
          subst ha
          exact ⟨rfl, rfl, rfl, rfl⟩

theorem c5_failed_start_witness :
    (startRun envFail c5Heap 3 c5A = some (c5A, some (.userError 7), [.init 0, .cb 0 3])) ∧
    (c5A = { c5A with running := false, runtimeTree := none } ∧
      isRunningOf c5A = false ∧ c5A.runtimeTree = none ∧
      contextOf c5A = .error (.notStarted c5A.name)) ∧
    runErr (startRun env0 c5Heap 3 c5A) = none ∧
    (runPost (startRun env0 c5Heap 3 c5A)).running = true :=
  ⟨by decide,
   c5_failed_start_discards_tree_resets_and_reraises envFail c5Heap 3 c5A c5A
     (.userError 7) [.init 0, .cb 0 3] (by decide),
   by decide, by decide⟩

/-- C7: the context accessor raises exactly when the instance is not
Running.  A fresh instance raises (before the first start), any `stop()`
leaves an instance whose context raises, and on every state where
`#running` agrees with the presence of `#runtimeTree` — which the first,
fourth and fifth conjuncts show is invariant for all states the lifecycle
produces — the accessor succeeds exactly when `#running` is true. -/
theorem c7_context_raises_iff_not_running :
    (∀ w nm, contextOf (mkAether w nm).2 = .error (.notStarted nm)) ∧
    (∀ env heap fuel a r, stopRun env heap fuel a = some r →
      a.running = a.runtimeTree.isSome →
      exceptIsOk (contextOf r.1) = false ∧ r.1.running = r.1.runtimeTree.isSome) ∧
    (∀ a, a.running = a.runtimeTree.isSome →
      exceptIsOk (contextOf a) = a.running) ∧
    (∀ env heap fuel a r, startRun env heap fuel a = some r →
      a.running = a.runtimeTree.isSome →
      r.1.running = r.1.runtimeTree.isSome) := by
  refine ⟨?_, ?_, ?_, ?_⟩
  · intro w nm
    rfl
  · intro env heap fuel a r h hinv
    unfold stopRun at h
    cases htree : a.runtimeTree with
    | none =>
      rw [htree] at h
      simp only [Option.some.injEq] at h
      subst h
      constructor
      · simp [contextOf, htree, exceptIsOk]
      · exact hinv
    | some t =>
      rw [htree] at h
      dsimp only at h
      by_cases hr : a.running = true
      · rw [if_pos hr] at h
        split at h
        · simp at h
        · simp only [Option.some.injEq] at h
          subst h
          exact ⟨rfl, rfl⟩
      · rw [if_neg hr] at h
        simp only [Option.some.injEq] at h
        subst h
        rw [htree, Option.isSome_some] at hinv
        exact absurd hinv hr
  · intro a hinv
    unfold contextOf
    cases htree : a.runtimeTree with
    | none =>
      rw [htree, Option.isSome_none] at hinv
      rw [hinv]
      rfl
    | some t =>
      rw [htree, Option.isSome_some] at hinv
      rw [hinv]
      rfl
  · intro env heap fuel a r h hinv
    unfold startRun at h
    by_cases hr : a.running = true
    · rw [if_pos hr] at h
      simp only [Option.some.injEq] at h
      subst h
      exact hinv
    · rw [if_neg hr] at h
      split at h
      · simp at h
      · split at h
        · simp at h
        · split at h
          · simp only [Option.some.injEq] at h
            subst h
            rfl
          · simp only [Option.some.injEq] at h
            subst h
            rfl

/-- C7 exercised: a fresh instance's context raises; on a stopped instance
the accessor raises; on a concrete running state with a tree it succeeds. -/
theorem c7_context_witness :
    contextOf (mkAether World.initial "w7").2 = .error (.notStarted "w7") ∧
    (exceptIsOk (contextOf (runPost (stopRun env0 c3HeapC 5 (runPost c3Start)))) = false ∧
      (runPost (stopRun env0 c3HeapC 5 (runPost c3Start))).running =
        (runPost (stopRun env0 c3HeapC 5 (runPost c3Start))).runtimeTree.isSome) ∧
    exceptIsOk (contextOf (runPost c3Start)) = (runPost c3Start).running ∧
    (runPost c3Start).running = (runPost c3Start).runtimeTree.isSome :=
  ⟨c7_context_raises_iff_not_running.1 World.initial "w7",
   c7_context_raises_iff_not_running.2.1 env0 c3HeapC 5 (runPost c3Start)
     (runPost (stopRun env0 c3HeapC 5 (runPost c3Start)),
       runErr (stopRun env0 c3HeapC 5 (runPost c3Start)),
       runTrace (stopRun env0 c3HeapC 5 (runPost c3Start))) (by decide) (by decide),
   c7_context_raises_iff_not_running.2.2.1 (runPost c3Start) (by decide),
   c7_context_raises_iff_not_running.2.2.2 env0 c3HeapC 5 ⟨"A", 2, [], false, none⟩
     (runPost c3Start, runErr c3Start, runTrace c3Start) (by decide) (by decide)⟩

theorem c8_cyclic_aux (fuel : Nat) :
    buildTree cyclicHeap fuel "m" 0 .globalScope BuildState.empty = none := by
  induction fuel with
  | zero => rfl
  | succ n ih =>
    show buildTreeStep cyclicHeap (buildTree cyclicHeap n) "m" 0 .globalScope
      BuildState.empty = none
    unfold buildTreeStep
    have ih' : buildTree cyclicHeap n "m" 0 .globalScope ⟨[], []⟩ = none := ih
    simp [cacheGet, BuildState.empty, cyclicHeap, ih']

/-- C8 counterexample: on the cyclic definition graph, `#buildTree` re-enters
the same `(definition, scopeId)` pair before anything was cached (the
children are built before the cache insertion), so construction never
terminates — there is no recursion depth at which the builder returns. -/
theorem c8_counterexample_cyclic_graph_never_terminates :
    ¬ ∃ fuel r, buildTree cyclicHeap fuel "m" 0 .globalScope BuildState.empty = some r := by
  rintro ⟨fuel, r, h⟩
  rw [c8_cyclic_aux fuel] at h
  exact Option.noConfusion h

/-- C8 (amended): every newly created Runtime Node is indeed stored in the
`(definition, scopeId)` cache before `#buildTree` returns, and a cached pair
is returned as-is without building a new node — which shares nodes across
acyclic (diamond) re-use; but since the children are built before the cache
insertion, this does not guard reentry on cyclic graphs (see the
counterexample), where construction does not terminate. -/
theorem c8_amended_node_cached_before_return :
    (∀ heap fuel nm d s st nid st',
      buildTree heap fuel nm d s st = some (nid, st') →
      cacheGet st' d s = some nid) ∧
    (∀ heap fuel nm d s st nid, cacheGet st d s = some nid →
      buildTree heap (fuel + 1) nm d s st = some (nid, st)) := by
  constructor
  · intro heap fuel nm d s st nid st' h
    cases fuel with
    | zero => exact Option.noConfusion h
    | succ n =>
      unfold buildTree buildTreeStep at h
      split at h
      case h_1 nid0 heq =>
        simp only [Option.some.injEq, Prod.mk.injEq] at h
        obtain ⟨h1, h2⟩ := h
        subst h1
        subst h2
        exact heq
      case h_2 =>
        dsimp only at h
        split at h
        · exact Option.noConfusion h
        · simp only [Option.some.injEq, Prod.mk.injEq] at h
          obtain ⟨h1, h2⟩ := h
          subst h2
          subst h1
          simp [cacheGet]
  · intro heap fuel nm d s st nid hc
    unfold buildTree buildTreeStep
    rw [hc]

/-- C8 amended, exercised: a leaf build caches its node under its
`(definition, scopeId)` pair, and rebuilding that pair returns the cached
node id with the state untouched. -/
theorem c8_amended_witness :
    cacheGet ⟨[((0, .globalScope), 0)], [freshNode "x" 0 []]⟩ 0 .globalScope = some 0 ∧
    buildTree (fun _ => emptyDef) 2 "y" 0 .globalScope
      ⟨[((0, .globalScope), 0)], [freshNode "x" 0 []]⟩ =
      some (0, ⟨[((0, .globalScope), 0)], [freshNode "x" 0 []]⟩) :=
  ⟨c8_amended_node_cached_before_return.1 (fun _ => emptyDef) 1 "x" 0 .globalScope
      BuildState.empty 0 ⟨[((0, .globalScope), 0)], [freshNode "x" 0 []]⟩ (by decide),
   c8_amended_node_cached_before_return.2 (fun _ => emptyDef) 1 "y" 0 .globalScope
      ⟨[((0, .globalScope), 0)], [freshNode "x" 0 []]⟩ 0 (by decide)⟩

theorem chainNodes_succ (i : Nat) :
    chainNodes (i + 1) = chainNodes i ++ [chainNode (i + 1)] := by
  simp [chainNodes, List.range_succ]

theorem chainNodes_length (i : Nat) : (chainNodes i).length = i + 1 := by
  simp [chainNodes]

theorem chainBuild (scope : String) :
    ∀ i fuel, i + 1 ≤ fuel →
      buildTree (chainHeap scope) fuel (nm i) i .globalScope ⟨[], []⟩ =
        some (i, ⟨chainCache i, chainNodes i⟩) := by
  intro i
  induction i with
  | zero =>
    intro fuel hf
    obtain ⟨f, rfl⟩ : ∃ f, fuel = f + 1 := ⟨fuel - 1, by omega⟩
    show buildTreeStep (chainHeap scope) (buildTree (chainHeap scope) f)
      (nm 0) 0 .globalScope ⟨[], []⟩ = _
    rfl
  | succ i ih =>
    intro fuel hf
    obtain ⟨f, rfl⟩ : ∃ f, fuel = f + 1 := ⟨fuel - 1, by omega⟩
    have hrec := ih f (by omega)
    show buildTreeStep (chainHeap scope) (buildTree (chainHeap scope) f)
      (nm (i + 1)) (i + 1) .globalScope ⟨[], []⟩ = _
    unfold buildTreeStep
    have hheap : chainHeap scope (i + 1) = chainMidDef (i + 1) := by
      simp [chainHeap]
    rw [hheap]
    simp only [chainMidDef, cacheGet, List.find?_nil, Option.map_none, List.foldl_cons,
      List.foldl_nil, Nat.add_sub_cancel, Option.getD_some, hrec]
    rw [chainNodes_succ]
    simp [chainNodes_length, chainNode, freshNode, chainCache]

theorem chainBuildRoot (scope : String) (n : Nat) (hn : 1 ≤ n) :
    ∀ fuel, n + 2 ≤ fuel →
      buildTree (chainHeap scope) fuel (nm n) n (.root (nm n)) ⟨[], []⟩ =
        some (n, ⟨((n, .root (nm n)), n) :: chainCache (n - 1), chainNodes n⟩) := by
  obtain ⟨m, rfl⟩ : ∃ m, n = m + 1 := ⟨n - 1, by omega⟩
  intro fuel hf
  obtain ⟨f, rfl⟩ : ∃ f, fuel = f + 1 := ⟨fuel - 1, by omega⟩
  have hrec := chainBuild scope m f (by omega)
  show buildTreeStep (chainHeap scope) (buildTree (chainHeap scope) f)
    (nm (m + 1)) (m + 1) (.root (nm (m + 1))) ⟨[], []⟩ = _
  unfold buildTreeStep
  have hheap : chainHeap scope (m + 1) = chainMidDef (m + 1) := by
    simp [chainHeap]
  rw [hheap]
  simp only [chainMidDef, cacheGet, List.find?_nil, Option.map_none, List.foldl_cons,
    List.foldl_nil, Nat.add_sub_cancel, Option.getD_some, hrec]
  rw [chainNodes_succ]
  simp [chainNodes_length, chainNode, freshNode]

theorem chainNodes_nodeAt (n i : Nat) (h : i ≤ n) :
    nodeAt (chainNodes n) i = chainNode i := by
  unfold nodeAt chainNodes
  rw [List.getD_eq_getElem?_getD, List.getElem?_map, List.getElem?_range (by omega)]
  rfl

theorem chainVisit (n : Nat) :
    ∀ i, i ≤ n → ∀ fuel, i + 1 ≤ fuel → ∀ visited order,
      (∀ j, j ≤ i → j ∉ visited) →
      ∃ visited', visitNode (chainNodes n) fuel i (visited, order) =
        some (visited', order ++ List.range (i + 1)) := by
  intro i
  induction i with
  | zero =>
    intro hi fuel hf visited order hnv
    obtain ⟨f, rfl⟩ : ∃ f, fuel = f + 1 := ⟨fuel - 1, by omega⟩
    refine ⟨0 :: visited, ?_⟩
    show visitStep (chainNodes n) (visitNode (chainNodes n) f) 0 (visited, order) = _
    unfold visitStep
    rw [if_neg (fun hmem => hnv 0 le_rfl hmem)]
    rw [chainNodes_nodeAt n 0 (by omega)]
    simp [chainNode, freshNode]
    rfl
  | succ i ih =>
    intro hi fuel hf visited order hnv
    obtain ⟨f, rfl⟩ : ∃ f, fuel = f + 1 := ⟨fuel - 1, by omega⟩
    obtain ⟨v', hv'⟩ := ih (by omega) f (by omega) ((i + 1) :: visited) order
      (fun j hj hmem => by
        rcases List.mem_cons.mp hmem with h1 | h2
        · omega
        · exact hnv j (by omega) h2)
    refine ⟨v', ?_⟩
    show visitStep (chainNodes n) (visitNode (chainNodes n) f) (i + 1) (visited, order) = _
    unfold visitStep
    rw [if_neg (fun hmem => hnv (i + 1) le_rfl hmem)]
    rw [chainNodes_nodeAt n (i + 1) hi]
    have hch : (chainNode (i + 1)).children = [i] := by
      simp [chainNode, freshNode]
    rw [hch]
    simp only [List.foldl_cons, List.foldl_nil, hv']
    rw [List.range_succ (n := i + 1), ← List.append_assoc]

theorem chainOrder (n fuel : Nat) (hf : n + 1 ≤ fuel) :
    lifecycleOrder (chainNodes n) fuel n = some (List.range (n + 1)) := by
  obtain ⟨v', hv⟩ := chainVisit n n le_rfl fuel (by omega) [] []
    (fun j hj hmem => by simp at hmem)
  unfold lifecycleOrder
  rw [hv]
  simp

theorem chainMixed_zero (pred : Nat → RuntimeNode) (n : Nat) :
    chainMixed pred n 0 = chainNodes n := by
  simp [chainMixed, chainNodes]

theorem chainMixed_getElem? (pred : Nat → RuntimeNode) (n k i : Nat) (h : i ≤ n) :
    (chainMixed pred n k)[i]? = some (if i < k then pred i else chainNode i) := by
  unfold chainMixed
  rw [List.getElem?_map, List.getElem?_range (by omega)]
  rfl

theorem chainMixed_nodeAt (pred : Nat → RuntimeNode) (n k i : Nat) (h : i ≤ n) :
    nodeAt (chainMixed pred n k) i = if i < k then pred i else chainNode i := by
  unfold nodeAt
  rw [List.getD_eq_getElem?_getD, chainMixed_getElem? pred n k i h]
  rfl

theorem chainMixed_length (pred : Nat → RuntimeNode) (n k : Nat) :
    (chainMixed pred n k).length = n + 1 := by
  simp [chainMixed]

theorem chainMixed_set (pred : Nat → RuntimeNode) (n k : Nat) (hk : k ≤ n)
    (v : RuntimeNode) (hv : v = pred k) :
    (chainMixed pred n k).set k v = chainMixed pred n (k + 1) := by
  apply List.ext_getElem?
  intro j
  by_cases hj : j ≤ n
  · by_cases hjk : j = k
    · subst hjk
      rw [List.getElem?_set_self (by rw [chainMixed_length]; omega),
        chainMixed_getElem? _ _ _ _ hj, hv]
      simp
    · rw [List.getElem?_set_ne (fun h => hjk h.symm),
        chainMixed_getElem? _ _ _ _ hj, chainMixed_getElem? _ _ _ _ hj]
      have hiff : (j < k) ↔ (j < k + 1) := by omega
      simp only [hiff]
  · have h1 : (chainMixed pred n k).length ≤ j := by rw [chainMixed_length]; omega
    have h2 : (chainMixed pred n (k + 1)).length ≤ j := by rw [chainMixed_length]; omega
    rw [List.getElem?_eq_none (by simpa using h1), List.getElem?_eq_none h2]

theorem exceptBind_ok {ε α β : Type} (a : α) (f : α → Except ε β) :
    (Except.ok a : Except ε α) >>= f = f a := rfl

theorem exceptBind_err {ε α β : Type} (e : ε) (f : α → Except ε β) :
    (Except.error e : Except ε α) >>= f = .error e := rfl

theorem exceptPure {ε α : Type} (a : α) : (pure a : Except ε α) = .ok a := rfl

theorem chainInitL_exported (m : Nat) : (chainInitL m).exportedProviders = ⟨[], []⟩ := by
  cases m <;> rfl

theorem chainInitL_prop (m : Nat) : (chainInitL m).propagatedProviders = ⟨[], []⟩ := by
  cases m <;> rfl

theorem chainInitS_exported_succ (m : Nat) :
    (chainInitS (m + 1)).exportedProviders = ⟨[], []⟩ := by
  cases m <;> rfl

theorem chainInitS_prop (m : Nat) : (chainInitS m).propagatedProviders = ⟨[], []⟩ := by
  rcases m with _ | _ | m <;> rfl

theorem chainStepL (env : Env) (n : Nat) : ∀ k, k ≤ n →
    initModule env (chainHeap "local") (chainMixed chainInitL n k) k =
      .ok (chainMixed chainInitL n (k + 1)) := by
  intro k hk
  have hnode : (chainMixed chainInitL n k)[k]? = some (chainNode k) := by
    rw [chainMixed_getElem? _ _ _ _ hk]
    simp
  unfold initModule
  rw [hnode]
  rcases k with _ | m
  · simp +decide [chainNode, freshNode, chainHeap, chainLeafDef, applyEntry, jhas, jset,
      originsSet, KindMaps.empty, KindMaps.get, KindMaps.set, exceptBind_ok, exceptBind_err,
      exceptPure]
    rw [chainMixed_set chainInitL n 0 hk _ (by decide)]
  · have hchild := chainMixed_getElem? chainInitL n (m + 1) m (by omega)
    rw [if_pos (by omega)] at hchild
    simp +decide [chainNode, freshNode, chainHeap, chainMidDef, importChild, PROVIDER_KINDS,
      KindMaps.empty, KindMaps.get, KindMaps.set, kmAssign, jassign, hchild,
      chainInitL_exported, chainInitL_prop, exceptBind_ok, exceptBind_err, exceptPure]
    rw [chainMixed_set chainInitL n (m + 1) hk _
      (by simp [chainInitL, initNode, chainNode, freshNode])]

theorem chainStepS (env : Env) (n : Nat) : ∀ k, k ≤ n →
    initModule env (chainHeap "scoped") (chainMixed chainInitS n k) k =
      .ok (chainMixed chainInitS n (k + 1)) := by
  intro k hk
  have hnode : (chainMixed chainInitS n k)[k]? = some (chainNode k) := by
    rw [chainMixed_getElem? _ _ _ _ hk]
    simp
  unfold initModule
  rw [hnode]
  rcases k with _ | _ | m
  · simp +decide [chainNode, freshNode, chainHeap, chainLeafDef, applyEntry, jhas, jset,
      originsSet, KindMaps.empty, KindMaps.get, KindMaps.set, exceptBind_ok, exceptBind_err,
      exceptPure]
    rw [chainMixed_set chainInitS n 0 hk _ (by decide)]
  · have hchild := chainMixed_getElem? chainInitS n 1 0 (by omega)
    rw [if_pos (by omega)] at hchild
    simp +decide [chainNode, freshNode, chainHeap, chainMidDef, importChild, PROVIDER_KINDS,
      KindMaps.empty, KindMaps.get, KindMaps.set, kmAssign, jassign, jhas, jset, originsSet,
      hchild, chainInitS, initNode, pObj, nm, exceptBind_ok, exceptBind_err, exceptPure]
    rw [chainMixed_set chainInitS n 1 hk _
      (by simp +decide [chainInitS, initNode, chainNode, freshNode, pObj, origAt, nm])]
  · have hchild := chainMixed_getElem? chainInitS n (m + 2) (m + 1) (by omega)
    rw [if_pos (by omega)] at hchild
    simp +decide [chainNode, freshNode, chainHeap, chainMidDef, importChild, PROVIDER_KINDS,
      KindMaps.empty, KindMaps.get, KindMaps.set, kmAssign, jassign, hchild,
      chainInitS_exported_succ, chainInitS_prop, exceptBind_ok, exceptBind_err, exceptPure]
    rw [chainMixed_set chainInitS n (m + 2) hk _
      (by simp [chainInitS, initNode, chainNode, freshNode])]

theorem chainStepG (env : Env) (n : Nat) : ∀ k, k ≤ n →
    initModule env (chainHeap "global") (chainMixed chainInitG n k) k =
      .ok (chainMixed chainInitG n (k + 1)) := by
  intro k hk
  have hnode : (chainMixed chainInitG n k)[k]? = some (chainNode k) := by
    rw [chainMixed_getElem? _ _ _ _ hk]
    simp
  unfold initModule
  rw [hnode]
  rcases k with _ | m
  · simp +decide [chainNode, freshNode, chainHeap, chainLeafDef, applyEntry, jhas, jset,
      originsSet, KindMaps.empty, KindMaps.get, KindMaps.set, exceptBind_ok, exceptBind_err,
      exceptPure]
    rw [chainMixed_set chainInitG n 0 hk _ (by decide)]
  · have hchild := chainMixed_getElem? chainInitG n (m + 1) m (by omega)
    rw [if_pos (by omega)] at hchild
    simp +decide [chainNode, freshNode, chainHeap, chainMidDef, importChild, PROVIDER_KINDS,
      KindMaps.empty, KindMaps.get, KindMaps.set, kmAssign, jassign, jhas, jset, originsSet,
      hchild, chainInitG, initNode, pObj, exceptBind_ok, exceptBind_err, exceptPure]
    rw [chainMixed_set chainInitG n (m + 1) hk _
      (by simp [chainInitG, initNode, chainNode, freshNode, origAt, pObj])]

theorem chainHeap_noCbs (s : String) (i : Nat) :
    (chainHeap s i).loadCallbacks = [] := by
  unfold chainHeap chainLeafDef chainMidDef
  split <;> rfl

/-- The `start()` loop over the tail `[k, …, n]` of the load order turns the
`k`-prefix-initialized store into the fully initialized one, tracing one
resolution step per node (the chain has no callbacks). -/
theorem chainLoadLoop (env : Env) (heap : Nat → ModuleDefinition)
    (pred : Nat → RuntimeNode) (n : Nat)
    (hstep : ∀ k, k ≤ n → initModule env heap (chainMixed pred n k) k =
      .ok (chainMixed pred n (k + 1)))
    (hcbs : ∀ i, (heap i).loadCallbacks = []) :
    ∀ d k, k + d = n + 1 → ∀ tr,
      runLoadLoop env heap (List.range' k d) (chainMixed pred n k) tr =
        (chainMixed pred n (n + 1), tr ++ (List.range' k d).map Event.init, none) := by
  intro d
  induction d with
  | zero =>
    intro k hkd tr
    have hkn : k = n + 1 := by omega
    subst hkn
    simp [runLoadLoop]
  | succ d ih =>
    intro k hkd tr
    have hk : k ≤ n := by omega
    show runLoadLoop env heap (k :: List.range' (k + 1) d) (chainMixed pred n k) tr = _
    unfold runLoadLoop
    rw [hstep k hk]
    dsimp only
    rw [hcbs]
    show runLoadLoop env heap (List.range' (k + 1) d) (chainMixed pred n (k + 1))
      (tr ++ [.init k]) = _
    rw [ih (k + 1) (by omega) (tr ++ [Event.init k])]
    simp
    rfl

theorem chainStart (scope : String) (pred : Nat → RuntimeNode) (env : Env) (n : Nat)
    (hn : 1 ≤ n)
    (hstep : ∀ k, k ≤ n → initModule env (chainHeap scope) (chainMixed pred n k) k =
      .ok (chainMixed pred n (k + 1))) :
    startRun env (chainHeap scope) (n + 2) (chainRoot n) =
      some (⟨nm n, n, [], true, some ⟨n, chainMixed pred n (n + 1)⟩⟩, none,
        (List.range (n + 1)).map Event.init) := by
  unfold startRun
  rw [if_neg (by simp [chainRoot])]
  simp only [chainRoot, BuildState.empty]
  rw [chainBuildRoot scope n hn (n + 2) le_rfl]
  dsimp only
  rw [chainOrder n (n + 2) (by omega)]
  dsimp only
  rw [← chainMixed_zero pred n, List.range_eq_range' (n + 1)]
  rw [chainLoadLoop env (chainHeap scope) pred n hstep (chainHeap_noCbs scope)
    (n + 1) 0 (by omega) []]
  simp [List.range_eq_range']

/-- C1: along a chain of modules, after `start()` of the root: a provider
declared with scope `"global"` at any depth `n ≥ 1` below the root is present
in the root's context; declared with scope `"local"`, it is absent from every
ancestor's context; declared with scope `"scoped"`, it is present in the
direct parent's context (node 1) and absent from every higher ancestor.  The
first conjunct ties the chain's leaf definition to what `#pushEntry` produces
when the provider is declared with the given scope. -/
theorem c1_scope_visibility_along_chain (n : Nat) (hn : 1 ≤ n) :
    (∀ s, pushEntry [] emptyDef "p" (.n 0) ⟨.decorator, s, "append"⟩ false =
      .ok (chainLeafDef s)) ∧
    (∃ a tr, startRun env0 (chainHeap "global") (n + 2) (chainRoot n) = some (a, none, tr) ∧
      ∃ ctx, contextOf a = .ok (some ctx) ∧ jhas ctx.decorator "p" = true) ∧
    (∃ a tr t, startRun env0 (chainHeap "local") (n + 2) (chainRoot n) = some (a, none, tr) ∧
      a.runtimeTree = some t ∧
      ∀ i, 1 ≤ i → i ≤ n → ∃ c, (nodeAt t.nodes i).callbackCtx = some c ∧
        jhas c.decorator "p" = false) ∧
    (∃ a tr t, startRun env0 (chainHeap "scoped") (n + 2) (chainRoot n) = some (a, none, tr) ∧
      a.runtimeTree = some t ∧
      (∃ c, (nodeAt t.nodes 1).callbackCtx = some c ∧ jhas c.decorator "p" = true) ∧
      ∀ i, 2 ≤ i → i ≤ n → ∃ c, (nodeAt t.nodes i).callbackCtx = some c ∧
        jhas c.decorator "p" = false) := by
  refine ⟨?_, ?_, ?_, ?_⟩
  · intro s
    unfold pushEntry
    dsimp only
    rw [if_neg (by decide), if_neg (by simp)]
    rfl
  · refine ⟨_, _, chainStart "global" chainInitG env0 n hn (chainStepG env0 n), ?_⟩
    refine ⟨⟨pObj, []⟩, ?_, by decide⟩
    unfold contextOf
    dsimp only
    rw [if_pos rfl]
    rw [chainMixed_nodeAt chainInitG n (n + 1) n le_rfl, if_pos (by omega)]
    rfl
  · refine ⟨_, _, _, chainStart "local" chainInitL env0 n hn (chainStepL env0 n), rfl, ?_⟩
    intro i h1 h2
    obtain ⟨j, rfl⟩ : ∃ j, i = j + 1 := ⟨i - 1, by omega⟩
    dsimp only
    rw [chainMixed_nodeAt chainInitL n (n + 1) (j + 1) h2, if_pos (by omega)]
    exact ⟨⟨[], []⟩, rfl, rfl⟩
  · refine ⟨_, _, _, chainStart "scoped" chainInitS env0 n hn (chainStepS env0 n), rfl, ?_, ?_⟩
    · dsimp only
      rw [chainMixed_nodeAt chainInitS n (n + 1) 1 hn, if_pos (by omega)]
      exact ⟨⟨pObj, []⟩, rfl, by decide⟩
    · intro i h1 h2
      obtain ⟨j, rfl⟩ : ∃ j, i = j + 2 := ⟨i - 2, by omega⟩
      dsimp only
      rw [chainMixed_nodeAt chainInitS n (n + 1) (j + 2) h2, if_pos (by omega)]
      exact ⟨⟨[], []⟩, rfl, rfl⟩

/-- C1 exercised at depth 3 (the spec's "three levels deep"). -/
theorem c1_scope_visibility_witness :
    1 ≤ 3 ∧
    ((∀ s, pushEntry [] emptyDef "p" (.n 0) ⟨.decorator, s, "append"⟩ false =
      .ok (chainLeafDef s)) ∧
    (∃ a tr, startRun env0 (chainHeap "global") (3 + 2) (chainRoot 3) = some (a, none, tr) ∧
      ∃ ctx, contextOf a = .ok (some ctx) ∧ jhas ctx.decorator "p" = true) ∧
    (∃ a tr t, startRun env0 (chainHeap "local") (3 + 2) (chainRoot 3) = some (a, none, tr) ∧
      a.runtimeTree = some t ∧
      ∀ i, 1 ≤ i → i ≤ 3 → ∃ c, (nodeAt t.nodes i).callbackCtx = some c ∧
        jhas c.decorator "p" = false) ∧
    (∃ a tr t, startRun env0 (chainHeap "scoped") (3 + 2) (chainRoot 3) = some (a, none, tr) ∧
      a.runtimeTree = some t ∧
      (∃ c, (nodeAt t.nodes 1).callbackCtx = some c ∧ jhas c.decorator "p" = true) ∧
      ∀ i, 2 ≤ i → i ≤ 3 → ∃ c, (nodeAt t.nodes i).callbackCtx = some c ∧
        jhas c.decorator "p" = false)) :=
  ⟨by decide, c1_scope_visibility_along_chain 3 (by decide)⟩

example : jset [("a", .n 1)] "a" (.n 2) = [("a", .n 2)] := by decide

example : jset [("a", .n 1)] "b" (.n 2) = [("a", .n 1), ("b", .n 2)] := by decide

example :
    pushEntry [] emptyDef "k" (.fnv 3) ⟨.store, "local", "append"⟩ false =
      .ok { emptyDef with providers :=
        [⟨.store, "k", .fnv 3, false, false, true, "append"⟩] } := by decide
